import Mathlib

/-!
Shallow embedding of the interactive session manager of `src/main.js`
(Classic Q Interface): session registry, session-id generation, the
process/PTY adapter event handlers, the prompt classifier, input
sending, session teardown and the executable locator.

External effects (the millisecond clock `Date.now()`, the filesystem
probe `fs.existsSync`, the `which`/`where` lookups, whether the
renderer window is still alive, and whether a low-level write throws)
are passed in as explicit parameters; events sent over the
`q-output` / `session-closed` channels are returned as lists.
-/

/-- Backend tag stored in a registry entry: `type: 'pty'` or `type: 'spawn'`
in `sessions.set(sessionId, { process, state, type })`. -/
inductive SessType
  | pty
  | spawn
deriving DecidableEq, Repr

/-- One registry entry value: `{ process: qProcess, state: 'ready', type }`.
`hasProcess` models the truthiness of the `process` field, which the
`send-to-q` and `kill-session` handlers test (`session && session.process`). -/
structure QSession where
  state : String
  type : SessType
  hasProcess : Bool
deriving DecidableEq, Repr

/-- The module-level `const sessions = new Map()`, as an association list
whose keys are kept duplicate-free (the JS `Map` key-uniqueness). -/
abbrev Registry := List (String × QSession)

/-- `sessions.get(sessionId)`. -/
def mapGet (m : Registry) (k : String) : Option QSession :=
  (m.find? (fun p => p.1 == k)).map (fun p => p.2)

/-- `sessions.set(sessionId, v)`: replace in place when the key is present,
append otherwise (JS `Map.set` semantics). -/
def mapSet (m : Registry) (k : String) (v : QSession) : Registry :=
  if m.any (fun p => p.1 == k) then
    m.map (fun p => if p.1 == k then (k, v) else p)
  else m ++ [(k, v)]

/-- `sessions.delete(sessionId)`. -/
def mapDelete (m : Registry) (k : String) : Registry :=
  m.filter (fun p => p.1 != k)

/-- The JS `Map` invariant: no two entries share a key. -/
def keysNodup (m : Registry) : Prop := (m.map Prod.fst).Nodup

/-- `const sessionId = Date.now().toString()` — the session id is the
decimal string of the current millisecond timestamp. -/
def genSessionId (now : Nat) : String := toString now

/-- Decimal digits of `n`, least significant first; helper used to reason
about `Nat.repr` (the meaning of `toString` on `Nat`). -/
def decDigitsRev (n : Nat) : List Char :=
  Nat.digitChar (n % 10) ::
    (if h : n / 10 = 0 then [] else decDigitsRev (n / 10))
termination_by n
decreasing_by
  exact Nat.div_lt_self (Nat.pos_of_ne_zero (fun h0 => h (by simp [h0]))) (by norm_num)

/-- Lowercased character sequence of a string; models the case-folding done
by the `/i` flag on the prompt-detection regex. -/
def lowerChars (s : String) : List Char := s.data.map Char.toLower

/-- Does `p` start with the pattern? (helper for substring search). -/
def startsWithL : List Char → List Char → Bool
  | [], _ => true
  | _ :: _, [] => false
  | p :: ps, c :: cs => p == c && startsWithL ps cs

/-- Does the pattern occur anywhere in the text? This is what
`regex.test(text)` means for an alternation of literal phrases. -/
def containsL (pat : List Char) : List Char → Bool
  | [] => startsWithL pat []
  | c :: cs => startsWithL pat (c :: cs) || containsL pat cs

/-- The alternatives of the source regex, in source order:
`/\(y\/n\)|Do you want to continue\?|Can I|Should I|Allow|Trust|Proceed/i`. -/
def promptPhrases : List String :=
  ["(y/n)", "Do you want to continue?", "Can I", "Should I", "Allow", "Trust", "Proceed"]

/-- The prompt classifier: `isPrompt = regex.test(data)` — true iff some
alternative occurs in the chunk, case-insensitively.  Stateless: a pure
function of the single chunk, no cross-chunk buffering. -/
def isPrompt (chunk : String) : Bool :=
  promptPhrases.any (fun p => containsL (lowerChars p) (lowerChars chunk))

/-- Payload of a `q-output` renderer event.  The optional flags model which
fields the handler put on the object: the pty and pipe-stdout handlers set
`isPrompt` (and no `isError`); the pipe-stderr handler sets `isError: true`
(and no `isPrompt`). -/
structure QOutput where
  sessionId : String
  data : String
  isPrompt : Option Bool
  isError : Option Bool
deriving DecidableEq, Repr

/-- Payload of a `session-closed` renderer event:
`{ sessionId, code }` or `{ sessionId, code: -1, error }`. -/
structure SessionClosed where
  sessionId : String
  code : Int
  error : Option String
deriving DecidableEq, Repr

/-- `qProcess.onData` handler of the pty backend: if the window is gone the
chunk is dropped, otherwise one `q-output` event is sent with the raw data
and the classifier flag. -/
def ptyOnData (windowAlive : Bool) (sessionId data : String) : List QOutput :=
  if windowAlive then [⟨sessionId, data, some (isPrompt data), none⟩] else []

/-- `qProcess.stdout.on('data')` handler of the pipe backend (the
`Buffer.toString()` decode is the identity on the text payloads modelled
here): same shape as the pty handler. -/
def pipeStdoutOnData (windowAlive : Bool) (sessionId text : String) : List QOutput :=
  if windowAlive then [⟨sessionId, text, some (isPrompt text), none⟩] else []

/-- `qProcess.stderr.on('data')` handler of the pipe backend: the chunk is
sent with `isError: true` and is never run through the classifier. -/
def pipeStderrOnData (windowAlive : Bool) (sessionId text : String) : List QOutput :=
  if windowAlive then [⟨sessionId, text, none, some true⟩] else []

/-- The `q-output` events produced by a sequence of pty data chunks of one
session, in arrival order. -/
def ptyStream (windowAlive : Bool) (sid : String) (chunks : List String) : List QOutput :=
  (chunks.map (ptyOnData windowAlive sid)).flatten

/-- The `q-output` events produced by a sequence of pipe-stdout chunks. -/
def pipeStdoutStream (windowAlive : Bool) (sid : String) (chunks : List String) : List QOutput :=
  (chunks.map (pipeStdoutOnData windowAlive sid)).flatten

/-- `qProcess.onExit` handler of the pty backend: delete the registry entry,
then send one `session-closed` event if the window is still alive. -/
def ptyOnExit (windowAlive : Bool) (m : Registry) (sessionId : String) (code : Int) :
    Registry × List SessionClosed :=
  (mapDelete m sessionId, if windowAlive then [⟨sessionId, code, none⟩] else [])

/-- `qProcess.on('close')` handler of the pipe backend: same shape. -/
def pipeOnClose (windowAlive : Bool) (m : Registry) (sessionId : String) (code : Int) :
    Registry × List SessionClosed :=
  (mapDelete m sessionId, if windowAlive then [⟨sessionId, code, none⟩] else [])

/-- `qProcess.on('error')` handler of the pipe backend (spawn failure):
delete the registry entry, then send one `session-closed` event with the
sentinel code `-1` and the error message. -/
def pipeOnError (windowAlive : Bool) (m : Registry) (sessionId : String) (message : String) :
    Registry × List SessionClosed :=
  (mapDelete m sessionId, if windowAlive then [⟨sessionId, -1, some message⟩] else [])

/-- The `create-session` handler up to registry insertion.  `spawnThrows`
models `pty.spawn` / `spawn` raising synchronously: the `catch` block
rethrows (`Except.error`), the registry is untouched and no
`session-closed` event fires, because `sessions.set` runs only after a
successful spawn.  On success the new entry is `{ state: 'ready', type }`. -/
def createSession (useNodePty : Bool) (spawnThrows : Option String) (m : Registry)
    (now : Nat) : Except String String × Registry × List SessionClosed :=
  let sessionId := genSessionId now
  match spawnThrows with
  | some msg => (Except.error msg, m, [])
  | none =>
      (Except.ok sessionId,
       mapSet m sessionId ⟨"ready", if useNodePty then SessType.pty else SessType.spawn, true⟩,
       [])

/-- JS `String.prototype.trim` as used by the `send-to-q` handler:
strip leading and trailing whitespace. -/
def trimStr (s : String) : String :=
  List.asString (((s.data.dropWhile Char.isWhitespace).reverse.dropWhile Char.isWhitespace).reverse)

/-- The `send-to-q` handler.  `writeOk` models whether the underlying
`write` call throws; a throw is caught locally and turned into `false`.
Returns the IPC result and the text actually written: the pty backend
writes `input.trim() + '\r'`, the pipe backend writes `input + '\n'` to
stdin; an unknown session id yields `(false, none)` with nothing written. -/
def sendToQ (m : Registry) (sessionId input : String) (writeOk : Bool) :
    Bool × Option String :=
  match mapGet m sessionId with
  | some session =>
      if session.hasProcess then
        if writeOk then
          match session.type with
          | SessType.pty => (true, some (trimStr input ++ "\r"))
          | SessType.spawn => (true, some (input ++ "\n"))
        else (false, none)
      else (false, none)
  | none => (false, none)

/-- The `kill-session` handler: if the session exists (and has a process),
kill it, delete the entry and return `true`; otherwise return `false`
leaving the registry unchanged. -/
def killSession (m : Registry) (sessionId : String) : Bool × Registry :=
  match mapGet m sessionId with
  | some session =>
      if session.hasProcess then (true, mapDelete m sessionId) else (false, m)
  | none => (false, m)

/-- The shutdown path shared by the `close-app` handler,
`window-all-closed` and the window `close` listener:
`sessions.forEach(s => s.process && s.process.kill(...)); sessions.clear()`.
Returns the ids that were sent a kill signal and the cleared registry. -/
def shutdownAll (m : Registry) : List String × Registry :=
  ((m.filter (fun p => p.2.hasProcess)).map Prod.fst, [])

/-- `process.platform` values distinguished by `findQCliPath`. -/
inductive OsPlatform
  | darwin
  | linux
  | win32
  | other
deriving DecidableEq, Repr

/-- The ambient effects `findQCliPath` consults: the trimmed output of
`which q` (`none` when `execSync` throws), the first line of `where q`,
the filesystem probe `fs.existsSync`, the platform, and the environment
strings used to build the Windows candidate paths. -/
structure LocatorEnv where
  whichQ : Option String
  whereQ : Option String
  pathExists : String → Bool
  platform : OsPlatform
  homedir : String
  programFiles : String
  userProfile : String

/-- The platform-specific well-known install paths probed by the manual
search, in source order. -/
def searchPaths (e : LocatorEnv) : List String :=
  match e.platform with
  | OsPlatform.darwin =>
      ["/usr/local/bin/q", "/opt/homebrew/bin/q", e.homedir ++ "/bin/q",
       e.homedir ++ "/.local/bin/q", "/usr/bin/q"]
  | OsPlatform.linux =>
      ["/usr/local/bin/q", "/opt/homebrew/bin/q", e.homedir ++ "/bin/q",
       e.homedir ++ "/.local/bin/q", "/usr/bin/q"]
  | OsPlatform.win32 =>
      ["q.exe", e.programFiles ++ "\\Amazon\\AWSCLIV2\\q.exe",
       e.userProfile ++ "\\AppData\\Local\\Programs\\q\\q.exe",
       e.programFiles ++ "\\q\\q.exe", "C:\\Program Files\\Amazon\\AWSCLIV2\\q.exe"]
  | OsPlatform.other => []

/-- The manual search loop plus the final fallback: the first existing
candidate, else the bare name `"q"`. -/
def searchLoop (e : LocatorEnv) : String :=
  (((searchPaths e).find? e.pathExists).getD "q")

/-- The `where q` step, tried only on win32: accept a nonempty result that
exists on disk. -/
def whereStep (e : LocatorEnv) : String :=
  if e.platform == OsPlatform.win32 then
    match e.whereQ with
    | some r => if r != "" && e.pathExists r then r else searchLoop e
    | none => searchLoop e
  else searchLoop e

/-- `findQCliPath()`: accept the `which q` result when nonempty and existing
on disk, otherwise fall through to the `where` step and the manual search. -/
def findQCliPath (e : LocatorEnv) : String :=
  match e.whichQ with
  | some r => if r != "" && e.pathExists r then r else whereStep e
  | none => whereStep e

/-- Did step 1 (`which q`) accept its result? -/
def whichAccepted (e : LocatorEnv) : Bool :=
  match e.whichQ with
  | some r => r != "" && e.pathExists r
  | none => false

/-- Did step 2 (`where q`, win32 only) accept its result? -/
def whereAccepted (e : LocatorEnv) : Bool :=
  if e.platform == OsPlatform.win32 then
    match e.whereQ with
    | some r => r != "" && e.pathExists r
    | none => false
  else false

/-! ## Helper lemmas -/

theorem digitChar_inj_lt : ∀ a < 10, ∀ b < 10, Nat.digitChar a = Nat.digitChar b → a = b := by
  decide

theorem decDigitsRev_ne_nil (n : Nat) : decDigitsRev n ≠ [] := by
  rw [decDigitsRev]
  exact List.cons_ne_nil _ _

theorem decDigitsRev_inj : ∀ m n : Nat, decDigitsRev m = decDigitsRev n → m = n := by
  intro m
  induction m using Nat.strong_induction_on with
  | _ m ih =>
    intro n h
    rw [decDigitsRev] at h
    conv at h => rhs; rw [decDigitsRev]
    simp only [List.cons.injEq] at h
    obtain ⟨h1, h2⟩ := h
    have hmod : m % 10 = n % 10 :=
      digitChar_inj_lt (m % 10) (Nat.mod_lt m (by norm_num)) (n % 10)
        (Nat.mod_lt n (by norm_num)) h1
    by_cases hm0 : m / 10 = 0 <;> by_cases hn0 : n / 10 = 0
    · omega
    · rw [dif_pos hm0, dif_neg hn0] at h2
      exact absurd h2.symm (decDigitsRev_ne_nil (n / 10))
    · rw [dif_neg hm0, dif_pos hn0] at h2
      exact absurd h2 (decDigitsRev_ne_nil (m / 10))
    · rw [dif_neg hm0, dif_neg hn0] at h2
      have hdivlt : m / 10 < m := Nat.div_lt_self (by omega) (by norm_num)
      have hdiv : m / 10 = n / 10 := ih (m / 10) hdivlt (n / 10) h2
      omega

theorem toDigitsCore_eq_decDigitsRev :
    ∀ (fuel n : Nat) (ds : List Char), n < fuel →
      Nat.toDigitsCore 10 fuel n ds = (decDigitsRev n).reverse ++ ds := by
  intro fuel
  induction fuel with
  | zero => intro n ds h; omega
  | succ f ih =>
    intro n ds h
    by_cases h0 : n / 10 = 0
    · simp only [Nat.toDigitsCore, h0, if_pos]
      rw [decDigitsRev, dif_pos h0]
      simp
    · simp only [Nat.toDigitsCore, if_neg h0]
      have hn1 : 1 ≤ n := by omega
      have hlt : n / 10 < n := Nat.div_lt_self (by omega) (by norm_num)
      rw [ih (n / 10) (Nat.digitChar (n % 10) :: ds) (by omega)]
      conv_rhs => rw [decDigitsRev]
      rw [dif_neg h0]
      simp

theorem natRepr_inj {a b : Nat} (h : Nat.repr a = Nat.repr b) : a = b := by
  have ha := toDigitsCore_eq_decDigitsRev (a + 1) a [] (Nat.lt_succ_self a)
  have hb := toDigitsCore_eq_decDigitsRev (b + 1) b [] (Nat.lt_succ_self b)
  unfold Nat.repr Nat.toDigits at h
  rw [ha, hb] at h
  have h2 : (decDigitsRev a).reverse = (decDigitsRev b).reverse := by
    have hd := congrArg String.data h
    simpa [List.asString] using hd
  exact decDigitsRev_inj a b (List.reverse_injective h2)

theorem genSessionId_inj {a b : Nat} (h : genSessionId a = genSessionId b) : a = b :=
  natRepr_inj h

theorem mapGet_mapDelete (m : Registry) (k : String) : mapGet (mapDelete m k) k = none := by
  induction m with
  | nil => rfl
  | cons p t ih =>
    by_cases h : p.1 = k
    · have hb : (p.1 != k) = false := by simp [bne, h]
      simpa [mapDelete, List.filter_cons, hb] using ih
    · have hb : (p.1 != k) = true := by simp [bne, h]
      have hbe : (p.1 == k) = false := by simp [h]
      simp only [mapDelete, mapGet, List.filter_cons, hb, if_true, List.find?, hbe]
      exact ih

theorem mapDelete_absent (m : Registry) (k : String) (h : mapGet m k = none) :
    mapDelete m k = m := by
  induction m with
  | nil => rfl
  | cons p t ih =>
    by_cases hp : p.1 = k
    · exfalso
      simp [mapGet, List.find?, hp] at h
    · have hb : (p.1 != k) = true := by simp [bne, hp]
      have hbe : (p.1 == k) = false := by simp [hp]
      have ht : mapGet t k = none := by simpa [mapGet, List.find?, hbe] using h
      simp only [mapDelete, List.filter_cons, hb, if_true]
      have ihh := ih ht
      simp only [mapDelete] at ihh
      rw [ihh]

theorem keysNodup_mapSet (m : Registry) (hm : keysNodup m) (k : String) (v : QSession) :
    keysNodup (mapSet m k v) := by
  unfold keysNodup mapSet
  by_cases hc : m.any (fun p => p.1 == k)
  · rw [if_pos hc]
    have hkeys : (m.map (fun p => if p.1 == k then (k, v) else p)).map Prod.fst
        = m.map Prod.fst := by
      rw [List.map_map]
      apply List.map_congr_left
      intro p _
      by_cases hpk : p.1 = k
      · simp [hpk]
      · simp [hpk]
    rw [hkeys]
    exact hm
  · rw [if_neg hc]
    rw [List.map_append]
    simp only [List.map_cons, List.map_nil]
    refine List.Nodup.append hm (List.nodup_singleton k) ?_
    intro a ha hb
    simp only [List.mem_singleton] at hb
    subst hb
    obtain ⟨p, hp, hfst⟩ := List.mem_map.mp ha
    apply hc
    rw [List.any_eq_true]
    exact ⟨p, hp, by simp [hfst]⟩

/-! ## Claim theorems -/

/-- C1: session ids are the decimal string of the millisecond clock
(`Date.now().toString()`); with a monotonically increasing time source
(pairwise strictly increasing timestamps across creation calls) all
generated ids are pairwise distinct — so an id once allocated is never
generated again — and `Map.set` never gives the registry two entries
with the same key. -/
theorem sessionIds_unique (times : List Nat) (hmono : times.Pairwise (· < ·))
    (m : Registry) (hm : keysNodup m) (sid : String) (s : QSession) :
    (times.map genSessionId).Nodup ∧ keysNodup (mapSet m sid s) := by
  constructor
  · have hne : times.Pairwise (fun a b => genSessionId a ≠ genSessionId b) :=
      hmono.imp (fun hab heq => absurd (genSessionId_inj heq) (Nat.ne_of_lt hab))
    show (times.map genSessionId).Pairwise (· ≠ ·)
    exact List.pairwise_map.mpr hne
  · exact keysNodup_mapSet m hm sid s

/-- C1 witness: three strictly increasing timestamps give three distinct
session ids, and inserting into an empty registry keeps keys unique. -/
theorem sessionIds_unique_witness :
    (([1000, 1001, 1002] : List Nat).map genSessionId).Nodup ∧
      keysNodup (mapSet [] "1000" ⟨"ready", SessType.pty, true⟩) :=
  sessionIds_unique [1000, 1001, 1002] (by decide) [] (by simp [keysNodup]) "1000"
    ⟨"ready", SessType.pty, true⟩

/-- C2 counterexample: with the renderer window destroyed, the pty exit
handler removes the registry entry but emits no `session-closed` event at
all — the exit notification is silently dropped, refuting the claim that
exactly one such event is always delivered and never dropped. -/
theorem exitNotification_dropped_cex :
    (ptyOnExit false [("100", ⟨"ready", SessType.pty, true⟩)] "100" 0).2 = [] ∧
    ¬ (ptyOnExit false [("100", ⟨"ready", SessType.pty, true⟩)] "100" 0).2.length = 1 := by
  exact ⟨rfl, by decide⟩

/-- C2 (amended): after the adapter reports exit (pty `onExit` or pipe
`close`), the session id is removed from the registry (`mapGet` returns
not-found), and exactly one `session-closed` event carrying that id and the
matching exit code is delivered when the consumer window is still attached;
when the window has been destroyed the notification is dropped. -/
theorem sessionExit_removes_and_notifies (w : Bool) (m : Registry) (sid : String)
    (code : Int) :
    mapGet (ptyOnExit w m sid code).1 sid = none ∧
    (ptyOnExit w m sid code).2 = (if w then [⟨sid, code, none⟩] else []) ∧
    mapGet (pipeOnClose w m sid code).1 sid = none ∧
    (pipeOnClose w m sid code).2 = (if w then [⟨sid, code, none⟩] else []) :=
  ⟨mapGet_mapDelete m sid, rfl, mapGet_mapDelete m sid, rfl⟩

/-- C3: with a consumer attached, each backend delivers one `q-output` event
per chunk, in arrival order, with the payload exactly the chunk text; the
two backends produce identical event streams (no re-encoding, reformatting
or newline normalization in either handler). -/
theorem output_order_and_payload (sid : String) (chunks : List String) :
    (ptyStream true sid chunks).map QOutput.data = chunks ∧
    (pipeStdoutStream true sid chunks).map QOutput.data = chunks ∧
    ptyStream true sid chunks = pipeStdoutStream true sid chunks := by
  refine ⟨?_, ?_, ?_⟩ <;>
    (induction chunks with
     | nil => rfl
     | cons c cs ih =>
         simpa [ptyStream, pipeStdoutStream, ptyOnData, pipeStdoutOnData] using ih)

/-- C9: one shutdown invocation sends one kill signal to each live session
(when every registry entry holds a live process handle, that is one signal
per entry, in registry order) and clears the registry; an immediately
following invocation on the now-empty registry sends no further signals. -/
theorem shutdown_convergence (m : Registry) (hall : ∀ p ∈ m, p.2.hasProcess = true) :
    (shutdownAll m).1 = m.map Prod.fst ∧
    (shutdownAll m).2 = [] ∧
    (shutdownAll (shutdownAll m).2).1 = [] ∧
    (shutdownAll (shutdownAll m).2).2 = [] := by
  refine ⟨?_, rfl, rfl, rfl⟩
  have hf : m.filter (fun p => p.2.hasProcess) = m :=
    List.filter_eq_self.mpr (by intro a ha; simpa using hall a ha)
  simp [shutdownAll, hf]

/-- C9 witness: three live sessions get exactly the three kill signals and
the registry ends empty; the second invocation is a no-op. -/
theorem shutdown_convergence_witness :
    (shutdownAll [("1", ⟨"ready", SessType.pty, true⟩), ("2", ⟨"ready", SessType.pty, true⟩),
        ("3", ⟨"ready", SessType.spawn, true⟩)]).1 = ["1", "2", "3"] ∧
    (shutdownAll [("1", ⟨"ready", SessType.pty, true⟩), ("2", ⟨"ready", SessType.pty, true⟩),
        ("3", ⟨"ready", SessType.spawn, true⟩)]).2 = [] ∧
    (shutdownAll (shutdownAll [("1", ⟨"ready", SessType.pty, true⟩),
        ("2", ⟨"ready", SessType.pty, true⟩),
        ("3", ⟨"ready", SessType.spawn, true⟩)]).2).1 = [] ∧
    (shutdownAll (shutdownAll [("1", ⟨"ready", SessType.pty, true⟩),
        ("2", ⟨"ready", SessType.pty, true⟩),
        ("3", ⟨"ready", SessType.spawn, true⟩)]).2).2 = [] :=
  shutdown_convergence [("1", ⟨"ready", SessType.pty, true⟩),
    ("2", ⟨"ready", SessType.pty, true⟩), ("3", ⟨"ready", SessType.spawn, true⟩)]
    (by decide)

/-- C10: every pipe-stderr chunk is delivered with `isError: true` and
without ever being run through the prompt classifier (the event carries no
`isPrompt` field), while pty events and pipe-stdout events never carry an
`isError` field. -/
theorem stderr_error_flag (sid text : String) :
    pipeStderrOnData true sid text = [⟨sid, text, none, some true⟩] ∧
    (pipeStdoutOnData true sid text).map QOutput.isError = [none] ∧
    (ptyOnData true sid text).map QOutput.isError = [none] :=
  ⟨rfl, rfl, rfl⟩

/-- C4: `kill-session` is idempotent in its result: for a live session the
first call returns `true` (removing the entry), an immediately repeated
call returns `false` (entry already removed); killing or deleting an
absent id is a no-op returning `false`, not an error. -/
theorem killSession_idempotent (m : Registry) (sid : String) (s : QSession)
    (hs : mapGet m sid = some s) (hp : s.hasProcess = true)
    (m2 : Registry) (sid2 : String) (habs : mapGet m2 sid2 = none) :
    (killSession m sid).1 = true ∧
    (killSession (killSession m sid).2 sid).1 = false ∧
    (killSession m2 sid2).1 = false ∧ (killSession m2 sid2).2 = m2 ∧
    mapDelete m2 sid2 = m2 := by
  refine ⟨?_, ?_, ?_, ?_, mapDelete_absent m2 sid2 habs⟩
  · simp [killSession, hs, hp]
  · have h1 : (killSession m sid).2 = mapDelete m sid := by simp [killSession, hs, hp]
    rw [h1]
    simp [killSession, mapGet_mapDelete]
  · simp [killSession, habs]
  · simp [killSession, habs]

/-- C4 witness: on a one-session registry, kill returns `true` then `false`;
on the empty registry it returns `false` and deleting is a no-op. -/
theorem killSession_idempotent_witness :
    (killSession [("7", ⟨"ready", SessType.pty, true⟩)] "7").1 = true ∧
    (killSession (killSession [("7", ⟨"ready", SessType.pty, true⟩)] "7").2 "7").1 = false ∧
    (killSession [] "9").1 = false ∧ (killSession ([] : Registry) "9").2 = [] ∧
    mapDelete ([] : Registry) "9" = [] :=
  killSession_idempotent [("7", ⟨"ready", SessType.pty, true⟩)] "7"
    ⟨"ready", SessType.pty, true⟩ (by decide) rfl [] "9" rfl

/-- C5: the prompt classifier is a stateless case-insensitive match on each
individual chunk — the flag attached to the event of each chunk in a stream
is a pure function of that chunk alone, so a phrase split across two chunks
is not detected — and on the spec test vectors it returns true, false,
true. -/
theorem prompt_classifier_spec (sid : String) (chunks : List String) :
    isPrompt "Do you want to continue? (y/n)" = true ∧
    isPrompt "Listing files in /tmp" = false ∧
    isPrompt "Trust this MCP server?" = true ∧
    (ptyStream true sid chunks).map QOutput.isPrompt
      = chunks.map (fun c => some (isPrompt c)) := by
  refine ⟨by decide, by decide, by decide, ?_⟩
  induction chunks with
  | nil => rfl
  | cons c cs ih => simpa [ptyStream, ptyOnData] using ih

/-- C6: `send-to-q` returns `false` when the session id is unknown or the
underlying write throws (the throw is caught locally — the handler is a
total function returning a boolean, it never propagates); otherwise it
returns `true` after writing `input.trim() + '\r'` on the pty backend, or
`input + '\n'` to the child's stdin on the pipe backend. -/
theorem sendInput_spec (m : Registry) (sid input : String) (s : QSession)
    (hs : mapGet m sid = some s) (hp : s.hasProcess = true)
    (m2 : Registry) (sid2 : String) (habs : mapGet m2 sid2 = none) :
    sendToQ m2 sid2 input true = (false, none) ∧
    sendToQ m sid input false = (false, none) ∧
    (s.type = SessType.pty →
      sendToQ m sid input true = (true, some (trimStr input ++ "\r"))) ∧
    (s.type = SessType.spawn →
      sendToQ m sid input true = (true, some (input ++ "\n"))) := by
  refine ⟨by simp [sendToQ, habs], by simp [sendToQ, hs, hp], ?_, ?_⟩
  · intro ht; simp [sendToQ, hs, hp, ht]
  · intro ht; simp [sendToQ, hs, hp, ht]

/-- C6 witness: unknown id gives `false`; a failing write on a live pty
session gives `false`; a successful write on a live pty session gives
`true` with the trimmed text plus a carriage return. -/
theorem sendInput_spec_witness :
    sendToQ [] "9" " hi " true = (false, none) ∧
    sendToQ [("7", ⟨"ready", SessType.pty, true⟩)] "7" " hi " false = (false, none) ∧
    sendToQ [("7", ⟨"ready", SessType.pty, true⟩)] "7" " hi " true
      = (true, some (trimStr " hi " ++ "\r")) := by
  have h := sendInput_spec [("7", ⟨"ready", SessType.pty, true⟩)] "7" " hi "
    ⟨"ready", SessType.pty, true⟩ (by decide) rfl [] "9" rfl
  exact ⟨h.1, h.2.1, h.2.2.1 rfl⟩

/-- C8 counterexample: a synchronous spawn failure (`pty.spawn` throwing) is
rethrown to the caller by the `create-session` catch block: no
`session-closed` event is emitted on that path, so the OS refusal is not
reported through the session-closed channel there. -/
theorem spawnError_no_event_cex :
    (createSession true (some "spawn q ENOENT") [] 1000).2.2 = [] ∧
    (createSession true (some "spawn q ENOENT") [] 1000).1
      = Except.error "spawn q ENOENT" :=
  ⟨rfl, rfl⟩

/-- C8 (amended): on the pipe backend an OS spawn refusal surfacing on the
`error` event is reported exactly once via `session-closed`, carrying the
session id, the negative sentinel code `-1` and the error message, and the
entry is removed from the registry; a spawn call that throws synchronously
instead propagates the error to the caller, emitting no `session-closed`
event and never inserting the session into the registry. -/
theorem spawnError_reporting (m : Registry) (sid msg : String) (useP : Bool)
    (mr : Registry) (now : Nat) :
    (pipeOnError true m sid msg).2 = [⟨sid, -1, some msg⟩] ∧
    (-1 : Int) < 0 ∧
    mapGet (pipeOnError true m sid msg).1 sid = none ∧
    (createSession useP (some msg) mr now).1 = Except.error msg ∧
    (createSession useP (some msg) mr now).2.1 = mr ∧
    (createSession useP (some msg) mr now).2.2 = [] :=
  ⟨rfl, by norm_num, mapGet_mapDelete m sid, rfl, rfl, rfl⟩

theorem str_append_ne_empty (a b : String) (hb : b ≠ "") : a ++ b ≠ "" := by
  intro h
  apply hb
  have hd : a.data ++ b.data = [] := congrArg String.data h
  exact String.ext (List.append_eq_nil.mp hd).2

theorem searchPaths_entries_ne (e : LocatorEnv) : ∀ p ∈ searchPaths e, p ≠ "" := by
  intro p hp
  obtain ⟨wq, wr, ex, plat, hd, pf, up⟩ := e
  cases plat <;> simp only [searchPaths, List.mem_cons, List.not_mem_nil, or_false] at hp
  · rcases hp with rfl | rfl | rfl | rfl | rfl
    · decide
    · decide
    · exact str_append_ne_empty _ _ (by decide)
    · exact str_append_ne_empty _ _ (by decide)
    · decide
  · rcases hp with rfl | rfl | rfl | rfl | rfl
    · decide
    · decide
    · exact str_append_ne_empty _ _ (by decide)
    · exact str_append_ne_empty _ _ (by decide)
    · decide
  · rcases hp with rfl | rfl | rfl | rfl | rfl
    · decide
    · exact str_append_ne_empty _ _ (by decide)
    · exact str_append_ne_empty _ _ (by decide)
    · exact str_append_ne_empty _ _ (by decide)
    · decide

theorem searchLoop_ne_empty (e : LocatorEnv) : searchLoop e ≠ "" := by
  unfold searchLoop
  cases hf : (searchPaths e).find? e.pathExists with
  | none => decide
  | some r =>
      have hr : r ∈ searchPaths e := List.mem_of_find?_eq_some hf
      simpa using searchPaths_entries_ne e r hr

theorem whereStep_eq_searchLoop (e : LocatorEnv) (h : whereAccepted e = false) :
    whereStep e = searchLoop e := by
  obtain ⟨wq, wr, ex, plat, hd, pf, up⟩ := e
  cases plat <;> cases wr <;> simp_all [whereStep, whereAccepted]

theorem whereStep_accepted (e : LocatorEnv) (h : whereAccepted e = true) :
    ∃ r, e.whereQ = some r ∧ r ≠ "" ∧ e.pathExists r = true ∧ whereStep e = r := by
  obtain ⟨wq, wr, ex, plat, hd, pf, up⟩ := e
  cases plat <;> cases wr <;> simp_all [whereStep, whereAccepted]

theorem findQCliPath_eq_whereStep (e : LocatorEnv) (h : whichAccepted e = false) :
    findQCliPath e = whereStep e := by
  obtain ⟨wq, wr, ex, plat, hd, pf, up⟩ := e
  cases wq <;> simp_all [findQCliPath, whichAccepted]

/-- C7: the locator is a total function that never returns the empty string:
it returns the native `which`/`where` lookup result only when that result is
nonempty and exists on disk, and otherwise (both native lookups rejected)
returns the first existing entry of the ordered platform-specific well-known
install paths, falling back to the bare command name `"q"`. -/
theorem locate_total_fallback (e : LocatorEnv) :
    findQCliPath e ≠ "" ∧
    (whichAccepted e = true →
      ∃ r, e.whichQ = some r ∧ e.pathExists r = true ∧ r ≠ "" ∧ findQCliPath e = r) ∧
    (whichAccepted e = false → whereAccepted e = false →
      findQCliPath e = ((searchPaths e).find? e.pathExists).getD "q") := by
  have hacc : whichAccepted e = true →
      ∃ r, e.whichQ = some r ∧ e.pathExists r = true ∧ r ≠ "" ∧ findQCliPath e = r := by
    intro h
    obtain ⟨wq, wr, ex, plat, hd, pf, up⟩ := e
    cases wq with
    | none => simp [whichAccepted] at h
    | some r =>
        simp only [whichAccepted] at h
        obtain ⟨hr1, hr2⟩ := Bool.and_eq_true_iff.mp h
        refine ⟨r, rfl, hr2, by simpa using hr1, ?_⟩
        simp [findQCliPath, hr1, hr2]
  have hne : findQCliPath e ≠ "" := by
    by_cases h1 : whichAccepted e = true
    · obtain ⟨r, _, _, hr, hfq⟩ := hacc h1
      rw [hfq]; exact hr
    · have h1f : whichAccepted e = false := by
        revert h1; cases whichAccepted e <;> simp
      rw [findQCliPath_eq_whereStep e h1f]
      by_cases h2 : whereAccepted e = true
      · obtain ⟨r, _, hr, _, hws⟩ := whereStep_accepted e h2
        rw [hws]; exact hr
      · have h2f : whereAccepted e = false := by
          revert h2; cases whereAccepted e <;> simp
        rw [whereStep_eq_searchLoop e h2f]
        exact searchLoop_ne_empty e
  refine ⟨hne, hacc, ?_⟩
  intro h1 h2
  rw [findQCliPath_eq_whereStep e h1, whereStep_eq_searchLoop e h2]
  rfl

/-- C7 witness: with both native lookups failing and nothing existing on
disk, the locator returns a nonempty string, namely the bare name from the
fallback chain. -/
theorem locate_total_fallback_witness :
    findQCliPath ⟨none, none, fun _ => false, OsPlatform.linux, "/home/u", "", ""⟩ ≠ "" ∧
    findQCliPath ⟨none, none, fun _ => false, OsPlatform.linux, "/home/u", "", ""⟩
      = ((searchPaths ⟨none, none, fun _ => false,
            OsPlatform.linux, "/home/u", "", ""⟩).find? (fun _ => false)).getD "q" :=
  ⟨(locate_total_fallback _).1, (locate_total_fallback _).2.2 rfl rfl⟩
